import Mathlib

/-!
Shallow embedding of the Amalyze review-scraping pipeline
(`src/utils.py`, `src/config.py`, `src/reviews_scraper.py`).

Pure pieces (product-id extraction, the retry/backoff loop, soft-block
detection, field extraction, the task grid and the per-task bookkeeping of
`ReviewScraper`) are translated into executable Lean functions.  HTTP and
HTML parsing are abstracted as oracles: a fetcher maps a URL to the result
of `make_request_with_backoff` for it, and a fetched page carries both its
raw body text (used for the soft-block substring checks) and the list of
review elements that `soup.select` would find in it.  The threaded part of
`ReviewScraper` (`Semaphore(max_threads)` admission control and the bare
`+= 1` counter updates done inside worker threads) is modelled as a
small-step interleaving transition system further below.
-/

namespace Amalyze

/-- Characters matched by the `[A-Z0-9]` class of the product-id regexes in
`utils.extract_product_id`. -/
def isProductIdChar (c : Char) : Bool :=
  c.isUpper || c.isDigit

/-- Matches the `[A-Z0-9]` group of exactly ten characters at the head of
`cs` (the `(...)` capture group of the product-id regexes). -/
def takeId (cs : List Char) : Option (List Char) :=
  let ds := cs.take 10
  if ds.length = 10 && ds.all isProductIdChar then some ds else none

/-- Scans `cs` left to right for the first position where the literal
pattern `pat` is followed by a ten-character product id, as `re.search`
does for the patterns of `utils.extract_product_id`. -/
def searchIdPattern (pat : List Char) : List Char → Option (List Char)
  | [] => none
  | c :: cs =>
    if pat.isPrefixOf (c :: cs) then
      match takeId ((c :: cs).drop pat.length) with
      | some ds => some ds
      | none => searchIdPattern pat cs
    else searchIdPattern pat cs

/-- Embedding of `utils.extract_product_id`: tries the three URL patterns
in order and returns the first captured product id, else `none`. -/
def extract_product_id (url : String) : Option String :=
  match searchIdPattern "/dp/".data url.data with
  | some ds => some (String.mk ds)
  | none =>
    match searchIdPattern "/product/".data url.data with
    | some ds => some (String.mk ds)
    | none =>
      match searchIdPattern "/gp/product/".data url.data with
      | some ds => some (String.mk ds)
      | none => none

/-- Outcome of one `session.get` attempt inside
`utils.make_request_with_backoff`: either a response with an HTTP status
and a body, or a raised `requests.RequestException`. -/
inductive AttemptOutcome where
  | response (status : Nat) (body : String)
  | netError
deriving DecidableEq, Repr

/-- Observable outcome of one call to `utils.make_request_with_backoff`:
the returned body (`none` models the Python `None` return), the number of
GET attempts issued, and the total exponential-backoff sleep in seconds
(the deterministic `2 ** retry` components; the `random.uniform(0, 1)`
jitter is excluded, as is the per-attempt `get_random_delay()` jitter). -/
structure FetchRun where
  result : Option String
  attempts : Nat
  backoff : Nat
deriving DecidableEq, Repr

/-- Success test of one attempt: the body is returned exactly when
`response.status_code == 200`. -/
def attemptSuccess : AttemptOutcome → Option String
  | .response status body => if status = 200 then some body else none
  | .netError => none

/-- Embedding of the `while retry < max_retries` loop of
`utils.make_request_with_backoff`.  `retry` is the 0-based index of the
next attempt and `remaining = max_retries - retry` counts the loop
iterations left.  On a failed attempt the code does `retry += 1` and then
sleeps `2 ** retry + uniform(0, 1)` seconds, even when that was the final
attempt, which is why the failure branch always adds `2 ^ (retry + 1)`. -/
def backoffLoop (outcome : Nat → AttemptOutcome) (retry : Nat) : Nat → FetchRun
  | 0 => { result := none, attempts := 0, backoff := 0 }
  | remaining + 1 =>
    match attemptSuccess (outcome retry) with
    | some body => { result := some body, attempts := 1, backoff := 0 }
    | none =>
      let rest := backoffLoop outcome (retry + 1) remaining
      { result := rest.result
        attempts := rest.attempts + 1
        backoff := rest.backoff + 2 ^ (retry + 1) }

/-- Embedding of `utils.make_request_with_backoff`, parameterized by the
oracle `outcome` giving the result of the i-th GET attempt.  With
`maxRetries = 0` (the Python guard `retry < max_retries` is false at once
for any non-positive bound) the loop body never runs. -/
def make_request_with_backoff (outcome : Nat → AttemptOutcome) (maxRetries : Nat) : FetchRun :=
  backoffLoop outcome 0 maxRetries

/-- Boolean substring test, the embedding of Python's `pat in s`. -/
def substrMatch (pat s : String) : Bool :=
  decide (pat.data <:+: s.data)

/-- The soft-block test of `reviews_scraper.py` (used identically on the
canary response in `scrape_reviews` and on each task response in
`_scrape_single_page`): the body contains the login-wall marker or the
captcha marker. -/
def isSoftBlocked (body : String) : Bool :=
  substrMatch "Sign in to continue" body ||
    substrMatch "Type the characters you see in this image" body

/-- Abstraction of one review element found by
`soup.select(REVIEW_SELECTORS["container"])`: each field holds the
`get_text()` result of the corresponding selector lookup (`none` when
`select_one` finds nothing), and `verifiedPresent` records whether the
verified-purchase badge element exists. -/
structure ReviewElement where
  titleMain : Option String
  titleFallback : Option String
  textMain : Option String
  textFallback : Option String
  dateElem : Option String
  verifiedPresent : Bool
  authorElem : Option String
  ratingElem : Option String
deriving DecidableEq, Repr

/-- One scraped review, the `review_data` dict built in
`ReviewScraper._extract_reviews_from_page`. -/
structure ReviewRecord where
  star_rating : Rat
  title : String
  text : String
  date : String
  verified : Bool
  author : String
  extracted_date : String
deriving DecidableEq, Repr

/-- Numeric value of a list of decimal digit characters. -/
def natOfDigits (ds : List Char) : Nat :=
  ds.foldl (fun n c => 10 * n + (c.toNat - 48)) 0

/-- Value denoted by an integer digit run and a fractional digit run, the
meaning of Python's `float(rating_match.group(1))`. -/
def ratOfNumber (intPart fracPart : List Char) : Rat :=
  (natOfDigits intPart : Rat) + (natOfDigits fracPart : Rat) / (10 : Rat) ^ fracPart.length

/-- Greedy match of the rating regex at the current position: a digit run,
optionally followed by a dot and a further digit run.  Returns the integer
and fractional digit runs, or `none` when the position does not start with
a digit. -/
def numberAt (cs : List Char) : Option (List Char × List Char) :=
  match cs with
  | [] => none
  | c :: _ =>
    if c.isDigit then
      let ip := cs.takeWhile Char.isDigit
      let rest := cs.dropWhile Char.isDigit
      match rest with
      | '.' :: ds =>
        let fp := ds.takeWhile Char.isDigit
        if fp.isEmpty then some (ip, []) else some (ip, fp)
      | _ => some (ip, [])
    else none

/-- Leftmost match of the rating regex in a string, as `re.search` finds
it: the first position where `numberAt` succeeds. -/
def findNumber : List Char → Option (List Char × List Char)
  | [] => none
  | c :: cs =>
    match numberAt (c :: cs) with
    | some r => some r
    | none => findNumber cs

/-- Primary/fallback selector logic shared by the title and body fields of
`_extract_reviews_from_page`: take the primary element if present, else
the fallback, strip the text, default to the empty string. -/
def selectText (mainElem fallbackElem : Option String) : String :=
  match mainElem with
  | some t => t.trim
  | none =>
    match fallbackElem with
    | some t => t.trim
    | none => ""

/-- Rating extraction of `_extract_reviews_from_page`: when the in-page
rating element exists, search its stripped text for a number and use it;
otherwise fall back to the star filter of the page being scraped. -/
def extractRating (ratingElem : Option String) (star : Nat) : Rat :=
  match ratingElem with
  | none => (star : Rat)
  | some t =>
    match findNumber t.trim.data with
    | some (ip, fp) => ratOfNumber ip fp
    | none => (star : Rat)

/-- Field extraction for one review element, building the `review_data`
dict of `_extract_reviews_from_page`.  `now` is the
`datetime.now().strftime("%Y-%m-%d %H:%M:%S")` reading taken when the
record is built. -/
def extractReview (e : ReviewElement) (star : Nat) (now : String) : ReviewRecord :=
  { star_rating := extractRating e.ratingElem star
    title := selectText e.titleMain e.titleFallback
    text := selectText e.textMain e.textFallback
    date := match e.dateElem with | some t => t.trim | none => ""
    verified := e.verifiedPresent
    author := match e.authorElem with | some t => t.trim | none => ""
    extracted_date := now }

/-- Embedding of `ReviewScraper._extract_reviews_from_page` as the list of
records pushed to the reviews queue (its Python return value is the length
of this list). -/
def extract_reviews_from_page (elems : List ReviewElement) (star : Nat) (now : String) :
    List ReviewRecord :=
  elems.map (fun e => extractReview e star now)

/-- Content-derived fields of a record, everything except the capture
timestamp. -/
def contentFields (r : ReviewRecord) : Rat × String × String × String × Bool × String :=
  (r.star_rating, r.title, r.text, r.date, r.verified, r.author)

/-- Embedding of the task-grid loop of `ReviewScraper.scrape_reviews`
(`for star_rating in range(5, 0, -1): for page_number in
range(1, max_pages_per_star + 1): ...`). -/
def buildTasks (maxPagesPerStar : Nat) : List (Nat × Nat) :=
  ((List.range 5).reverse.map (· + 1)).flatMap
    (fun star => (List.range maxPagesPerStar).map (fun p => (star, p + 1)))

/-- Result of a successful fetch of one page, abstracting the response
and its BeautifulSoup parse: `body` is `response.text` (inspected for
soft-block markers) and `elements` is the list of review elements that
`soup.select(REVIEW_SELECTORS["container"])` finds in it. -/
structure Page where
  body : String
  elements : List ReviewElement
deriving DecidableEq, Repr

/-- The two outcome counters of `ReviewScraper` (`successful_requests`
and `failed_requests`), both initialized to 0 in `__init__`. -/
structure RunStats where
  successful_requests : Nat
  failed_requests : Nat
deriving DecidableEq, Repr

/-- Logical effect of `ReviewScraper._scrape_single_page` for one task:
`fetchResult` is the value of `make_request_with_backoff` for the task's
URL (`none` for exhausted retries).  Returns the updated counters and the
records pushed to the reviews queue (the Python return value is the length
of that list).  A failed or soft-blocked fetch increments the failure
counter and contributes no reviews; otherwise the success counter is
incremented and the page is extracted. -/
def scrape_single_page (fetchResult : Option Page) (star : Nat) (now : String)
    (stats : RunStats) : RunStats × List ReviewRecord :=
  match fetchResult with
  | none => ({ stats with failed_requests := stats.failed_requests + 1 }, [])
  | some pg =>
    if isSoftBlocked pg.body then
      ({ stats with failed_requests := stats.failed_requests + 1 }, [])
    else
      ({ stats with successful_requests := stats.successful_requests + 1 },
        extract_reviews_from_page pg.elements star now)

/-- The `STAR_FILTERS` table of `config.py` (keys 1 to 5 are the only ones
ever looked up). -/
def starFilter (star : Nat) : String :=
  match star with
  | 5 => "five_star"
  | 4 => "four_star"
  | 3 => "three_star"
  | 2 => "two_star"
  | _ => "one_star"

/-- The `REVIEWS_URL_PATTERN` of `config.py` instantiated for one task. -/
def reviews_url (productId : String) (star page : Nat) : String :=
  "https://www.amazon.in/product-reviews/" ++ productId ++
    "/ref=cm_cr_arp_d_viewopt_sr?ie=UTF8&reviewerType=all_reviews&filterByStar=" ++
    starFilter star ++ "&pageNumber=" ++ toString page

/-- The canary URL `test_url` built in `ReviewScraper.scrape_reviews`. -/
def canary_url (productId : String) : String :=
  "https://www.amazon.in/product-reviews/" ++ productId

/-- Distinct logger calls of `ReviewScraper.scrape_reviews`, the only
channel on which its outcome classes differ. -/
inductive LogEvent where
  | errorInvalidUrl
  | errorNoSession
  | errorCanaryFailed
  | errorCanaryBlocked
  | infoAccessTestPassed
  | warningNoReviews
  | infoReviewsSaved
deriving DecidableEq, Repr

/-- Observables of one `ReviewScraper.scrape_reviews` call: the returned
table (the rows of the returned DataFrame — the only value handed back to
the caller), the URLs passed to `make_request_with_backoff` in order, the
final counters held on the scraper object, and the log events emitted. -/
structure ScrapeOutput where
  table : List ReviewRecord
  fetchedUrls : List String
  stats : RunStats
  logs : List LogEvent
deriving DecidableEq, Repr

/-- Effect of one submitted task on the accumulated run state: counters,
collected reviews, and the list of task URLs fetched so far.  `fetcher`
maps a URL to the `make_request_with_backoff` result for it under the
run's session. -/
def taskStep (fetcher : String → Option Page) (productId now : String)
    (acc : RunStats × List ReviewRecord × List String) (t : Nat × Nat) :
    RunStats × List ReviewRecord × List String :=
  let u := reviews_url productId t.1 t.2
  let r := scrape_single_page (fetcher u) t.1 now acc.1
  (r.1, acc.2.1 ++ r.2, acc.2.2 ++ [u])

/-- Aggregate effect of running every task of the grid.  The thread pool
of `scrape_reviews` runs tasks concurrently; their per-task effects
(one counter outcome and one batch of queued reviews each) are folded here
in submission order, which fixes one representative interleaving of the
queue contents (the spec leaves row order unconstrained). -/
def runTasks (fetcher : String → Option Page) (productId now : String)
    (tasks : List (Nat × Nat)) (acc : RunStats × List ReviewRecord × List String) :
    RunStats × List ReviewRecord × List String :=
  tasks.foldl (taskStep fetcher productId now) acc

/-- Embedding of `ReviewScraper.scrape_reviews`.  Guards in source order:
invalid product URL, missing session, canary fetch returning `None`,
canary body soft-blocked — each returns an empty DataFrame at once.
Otherwise every task of the grid is executed and the queue is drained into
the returned table. -/
def scrape_reviews (hasSession : Bool) (fetcher : String → Option Page)
    (productUrl : String) (maxPagesPerStar : Nat) (now : String) : ScrapeOutput :=
  match extract_product_id productUrl with
  | none => { table := [], fetchedUrls := [], stats := ⟨0, 0⟩, logs := [.errorInvalidUrl] }
  | some pid =>
    if hasSession then
      match fetcher (canary_url pid) with
      | none =>
        { table := [], fetchedUrls := [canary_url pid], stats := ⟨0, 0⟩
          logs := [.errorCanaryFailed] }
      | some pg =>
        if isSoftBlocked pg.body then
          { table := [], fetchedUrls := [canary_url pid], stats := ⟨0, 0⟩
            logs := [.errorCanaryBlocked] }
        else
          let r := runTasks fetcher pid now (buildTasks maxPagesPerStar) (⟨0, 0⟩, [], [])
          { table := r.2.1
            fetchedUrls := canary_url pid :: r.2.2
            stats := r.1
            logs := if r.2.1.isEmpty then [.infoAccessTestPassed, .warningNoReviews]
                    else [.infoAccessTestPassed, .infoReviewsSaved] }
    else { table := [], fetchedUrls := [], stats := ⟨0, 0⟩, logs := [.errorNoSession] }

/-- Decides whether a task fails under a given fetcher: its fetch returns
`None` or its body is soft-blocked (the two failure branches of
`_scrape_single_page`). -/
def taskFails (fetcher : String → Option Page) (productId : String) (t : Nat × Nat) : Bool :=
  match fetcher (reviews_url productId t.1 t.2) with
  | none => true
  | some pg => isSoftBlocked pg.body

/-- Reviews contributed by one task under a given fetcher: none on either
failure branch, the extracted page otherwise. -/
def taskReviews (fetcher : String → Option Page) (productId now : String) (t : Nat × Nat) :
    List ReviewRecord :=
  match fetcher (reviews_url productId t.1 t.2) with
  | none => []
  | some pg => if isSoftBlocked pg.body then [] else extract_reviews_from_page pg.elements t.1 now

/-!
Interleaving model of the threaded part of `ReviewScraper`.

Each worker running `_scrape_single_page` is a sequence of atomic steps:
acquire one unit of `Semaphore(max_threads)` (the `with self.semaphore:`
entry), start and finish the fetch, then — on whichever of the success and
failure branches the fetch outcome selects — perform the `+= 1` counter
update as CPython executes it, namely a load of the shared attribute
followed by a separate store of the incremented value, and finally release
the semaphore unit (the `with` block exit, which runs on both branches and
on exceptions).  The scheduler may interleave steps of distinct tasks
arbitrarily.
-/

/-- Program counter of one worker task.  `ok` records which branch of
`_scrape_single_page` the task took: `true` for the success-counter branch,
`false` for either failure branch (fetch returned `None`, or the body was
soft-blocked). -/
inductive TaskPhase where
  | idle
  | holding
  | fetching
  | fetched (ok : Bool)
  | readCtr (ok : Bool) (v : Nat)
  | wroteCtr (ok : Bool)
  | finished (ok : Bool)
deriving DecidableEq, Repr

/-- Shared state of the run: remaining semaphore units, the two shared
counters, and the phase of every task (indexed by position). -/
structure PoolState where
  avail : Nat
  succ : Nat
  fail : Nat
  phases : List TaskPhase
deriving DecidableEq, Repr

/-- One atomic step of some task.  The counter update is split into a
read step and a write step because `self.successful_requests += 1` and
`self.failed_requests += 1` are plain attribute read-modify-writes, not
atomic operations; the semaphore unit held around them has capacity
`max_threads`, so it does not serialize them. -/
inductive PoolStep : PoolState → PoolState → Prop where
  | acquire (s : PoolState) (i : Nat) :
      s.phases[i]? = some .idle → 0 < s.avail →
      PoolStep s { s with avail := s.avail - 1, phases := s.phases.set i .holding }
  | startFetch (s : PoolState) (i : Nat) :
      s.phases[i]? = some .holding →
      PoolStep s { s with phases := s.phases.set i .fetching }
  | endFetch (s : PoolState) (i : Nat) (ok : Bool) :
      s.phases[i]? = some .fetching →
      PoolStep s { s with phases := s.phases.set i (.fetched ok) }
  | readCounter (s : PoolState) (i : Nat) (ok : Bool) :
      s.phases[i]? = some (.fetched ok) →
      PoolStep s
        { s with phases := s.phases.set i (.readCtr ok (if ok then s.succ else s.fail)) }
  | writeCounter (s : PoolState) (i : Nat) (ok : Bool) (v : Nat) :
      s.phases[i]? = some (.readCtr ok v) →
      PoolStep s
        { s with phases := s.phases.set i (.wroteCtr ok)
                 succ := if ok then v + 1 else s.succ
                 fail := if ok then s.fail else v + 1 }
  | release (s : PoolState) (i : Nat) (ok : Bool) :
      s.phases[i]? = some (.wroteCtr ok) →
      PoolStep s { s with avail := s.avail + 1, phases := s.phases.set i (.finished ok) }

/-- Initial state: `Semaphore(max_threads)` full, both counters 0, every
task pending. -/
def PoolInit (maxThreads numTasks : Nat) : PoolState :=
  { avail := maxThreads, succ := 0, fail := 0, phases := List.replicate numTasks .idle }

/-- States reachable by interleaving task steps from the initial state. -/
def PoolReach (maxThreads numTasks : Nat) (s : PoolState) : Prop :=
  Relation.ReflTransGen PoolStep (PoolInit maxThreads numTasks) s

/-- Tasks whose fetch call is currently in flight. -/
def isFetching : TaskPhase → Bool
  | .fetching => true
  | _ => false

/-- Tasks currently holding a semaphore unit (anything between the
acquire and the release). -/
def holdsUnit : TaskPhase → Bool
  | .idle => false
  | .finished _ => false
  | _ => true

/-- Tasks on the failure branch that have completed their counter write. -/
def wroteFail : TaskPhase → Bool
  | .wroteCtr false => true
  | .finished false => true
  | _ => false

/-- Tasks on the success branch that have completed their counter write. -/
def wroteSucc : TaskPhase → Bool
  | .wroteCtr true => true
  | .finished true => true
  | _ => false

/-!
Theorems.  Each claim of the specification is settled below; helper lemmas
come first.
-/

lemma attemptSuccess_eq_none (a : AttemptOutcome) (h : ∀ b, a ≠ .response 200 b) :
    attemptSuccess a = none := by
  cases a with
  | response status body =>
    by_cases hs : status = 200
    · subst hs
      exact absurd rfl (h body)
    · simp [attemptSuccess, hs]
  | netError => rfl

lemma backoffLoop_attempts_le (o : Nat → AttemptOutcome) :
    ∀ (rem retry : Nat), (backoffLoop o retry rem).attempts ≤ rem := by
  intro rem
  induction rem with
  | zero => intro retry; simp [backoffLoop]
  | succ n ih =>
    intro retry
    cases h : attemptSuccess (o retry) with
    | none =>
      simp only [backoffLoop, h]
      exact Nat.succ_le_succ (ih (retry + 1))
    | some body => simp [backoffLoop, h]

lemma backoffLoop_result_none (o : Nat → AttemptOutcome) :
    ∀ (rem retry : Nat), (∀ i, retry ≤ i → i < retry + rem → attemptSuccess (o i) = none) →
      (backoffLoop o retry rem).result = none := by
  intro rem
  induction rem with
  | zero => intro retry _; simp [backoffLoop]
  | succ n ih =>
    intro retry h
    have h0 : attemptSuccess (o retry) = none := h retry (le_refl _) (by omega)
    simp only [backoffLoop, h0]
    exact ih (retry + 1) (fun i h1 h2 => h i (by omega) (by omega))

/-- C10: calling the fetcher with a retry budget of zero returns the
terminal failure (`None`) at once, making no GET attempt and sleeping no
backoff time (the guard `retry < max_retries` of the loop is false
immediately for any non-positive bound). -/
theorem make_request_with_backoff_zero_budget (outcome : Nat → AttemptOutcome) :
    make_request_with_backoff outcome 0 = { result := none, attempts := 0, backoff := 0 } :=
  rfl

/-- C4: the fetcher returns the body immediately on an HTTP 200 with a
single attempt and no backoff; it makes at most `maxRetries` attempts;
when no attempt within the budget yields a 200 it returns the terminal
failure; and in the fail-twice-then-succeed scenario with `maxRetries = 3`
it returns the successful body after exactly `2 ^ 1 + 2 ^ 2` seconds of
backoff (jitter excluded). -/
theorem make_request_with_backoff_spec (outcome : Nat → AttemptOutcome) (maxRetries : Nat)
    (body : String) :
    ((make_request_with_backoff outcome maxRetries).attempts ≤ maxRetries)
    ∧ (0 < maxRetries → outcome 0 = .response 200 body →
        make_request_with_backoff outcome maxRetries
          = { result := some body, attempts := 1, backoff := 0 })
    ∧ ((∀ i, i < maxRetries → ∀ b, outcome i ≠ .response 200 b) →
        (make_request_with_backoff outcome maxRetries).result = none)
    ∧ (maxRetries = 3 → (∀ b, outcome 0 ≠ .response 200 b) →
        (∀ b, outcome 1 ≠ .response 200 b) → outcome 2 = .response 200 body →
        make_request_with_backoff outcome maxRetries
          = { result := some body, attempts := 3, backoff := 2 ^ 1 + 2 ^ 2 }) := by
  refine ⟨backoffLoop_attempts_le outcome maxRetries 0, ?_, ?_, ?_⟩
  · intro hpos h200
    obtain ⟨m, rfl⟩ : ∃ m, maxRetries = m + 1 := ⟨maxRetries - 1, by omega⟩
    have hs : attemptSuccess (outcome 0) = some body := by simp [h200, attemptSuccess]
    simp [make_request_with_backoff, backoffLoop, hs]
  · intro hall
    exact backoffLoop_result_none outcome maxRetries 0
      (fun i _ hi => attemptSuccess_eq_none _ (hall i (by omega)))
  · intro h3 h0 h1 h2
    subst h3
    have e0 : attemptSuccess (outcome 0) = none := attemptSuccess_eq_none _ h0
    have e1 : attemptSuccess (outcome 1) = none := attemptSuccess_eq_none _ h1
    have e2 : attemptSuccess (outcome 2) = some body := by simp [h2, attemptSuccess]
    simp [make_request_with_backoff, backoffLoop, e0, e1, e2]

/-- Attempt oracle of the backoff scenario: two network failures, then a
successful response. -/
def c4Outcome : Nat → AttemptOutcome :=
  fun i => if i < 2 then .netError else .response 200 "ok"

/-- Witness for C4: the fail-twice-then-succeed scenario evaluated on a
concrete attempt oracle. -/
theorem make_request_with_backoff_spec_witness :
    make_request_with_backoff c4Outcome 3
      = { result := some "ok", attempts := 3, backoff := 2 ^ 1 + 2 ^ 2 } := by
  have h := make_request_with_backoff_spec c4Outcome 3 "ok"
  exact h.2.2.2 rfl (fun b => by simp [c4Outcome]) (fun b => by simp [c4Outcome])
    (by simp [c4Outcome])

lemma stars_eq : (List.range 5).reverse.map (· + 1) = [5, 4, 3, 2, 1] := by decide

lemma buildTasks_eq (n : Nat) :
    buildTasks n
      = [5, 4, 3, 2, 1].flatMap (fun star => (List.range n).map (fun p => (star, p + 1))) := by
  rw [buildTasks, stars_eq]

lemma pairwise_pages (s n : Nat) :
    ((List.range n).map (fun p => (s, p + 1))).Pairwise
      (fun a b : Nat × Nat => b.1 < a.1 ∨ (a.1 = b.1 ∧ a.2 < b.2)) := by
  rw [List.pairwise_map]
  exact (List.pairwise_lt_range n).imp (fun h => Or.inr ⟨rfl, by omega⟩)

lemma pairwise_flatMap_pages (n : Nat) :
    ∀ (stars : List Nat), stars.Pairwise (· > ·) →
      (stars.flatMap (fun star => (List.range n).map (fun p => (star, p + 1)))).Pairwise
        (fun a b : Nat × Nat => b.1 < a.1 ∨ (a.1 = b.1 ∧ a.2 < b.2)) := by
  intro stars
  induction stars with
  | nil => intro _; simp
  | cons s ss ih =>
    intro hp
    rw [List.flatMap_cons, List.pairwise_append]
    refine ⟨pairwise_pages s n, ih (List.pairwise_cons.mp hp).2, ?_⟩
    intro a ha b hb
    obtain ⟨p, _, rfl⟩ := List.mem_map.mp ha
    obtain ⟨s', hs', hb'⟩ := List.mem_flatMap.mp hb
    obtain ⟨q, _, rfl⟩ := List.mem_map.mp hb'
    exact Or.inl ((List.pairwise_cons.mp hp).1 s' hs')

/-- C3: for `maxPagesPerStar = n ≥ 1` the task grid has exactly `5 * n`
entries, contains a pair `(s, p)` exactly when `s` is a star rating 1–5
and `p` a page 1–n (hence all pairs are distinct and every combination is
covered), and is enumerated with star ratings strictly descending and
pages strictly ascending within each star. -/
theorem buildTasks_spec (n : Nat) (_hn : 1 ≤ n) :
    (buildTasks n).length = 5 * n
    ∧ (∀ s p : Nat, (s, p) ∈ buildTasks n ↔ (1 ≤ s ∧ s ≤ 5 ∧ 1 ≤ p ∧ p ≤ n))
    ∧ (buildTasks n).Pairwise (fun a b => b.1 < a.1 ∨ (a.1 = b.1 ∧ a.2 < b.2))
    ∧ (buildTasks n).Nodup := by
  have hpw : (buildTasks n).Pairwise (fun a b => b.1 < a.1 ∨ (a.1 = b.1 ∧ a.2 < b.2)) := by
    rw [buildTasks_eq]
    exact pairwise_flatMap_pages n [5, 4, 3, 2, 1] (by decide)
  refine ⟨?_, ?_, hpw, ?_⟩
  · rw [buildTasks_eq]
    simp [List.flatMap_cons, List.flatMap_nil]
    omega
  · intro s p
    rw [buildTasks_eq]
    simp only [List.mem_flatMap, List.mem_map, List.mem_range]
    constructor
    · rintro ⟨a, ha, q, hq, heq⟩
      have h1 : a = s := congrArg Prod.fst heq
      have h2 : q + 1 = p := congrArg Prod.snd heq
      simp at ha
      omega
    · rintro ⟨h1, h2, h3, h4⟩
      refine ⟨s, ?_, p - 1, by omega, by simp; omega⟩
      simp
      omega
  · exact hpw.imp (fun {a b} hab => by
      intro heq
      subst heq
      rcases hab with h' | ⟨_, h'⟩ <;> omega)

/-- Witness for C3: the grid for two pages per star. -/
theorem buildTasks_spec_witness :
    (buildTasks 2).length = 5 * 2 ∧ (buildTasks 2).Nodup :=
  ⟨(buildTasks_spec 2 (by norm_num)).1, (buildTasks_spec 2 (by norm_num)).2.2.2⟩

/-- C1: when the canary fetch fails outright or returns a soft-blocked
body, `scrape_reviews` returns an empty table, and the only URL ever
handed to the fetcher is the canary URL — none of the task fetches is
issued. -/
theorem canary_failure_aborts_run (fetcher : String → Option Page) (url pid : String)
    (n : Nat) (now : String) (hpid : extract_product_id url = some pid)
    (habort : fetcher (canary_url pid) = none ∨
      ∃ pg, fetcher (canary_url pid) = some pg ∧ isSoftBlocked pg.body = true) :
    (scrape_reviews true fetcher url n now).table = []
    ∧ (scrape_reviews true fetcher url n now).fetchedUrls = [canary_url pid] := by
  rcases habort with h | ⟨pg, hpg, hblk⟩
  · constructor <;> simp [scrape_reviews, hpid, h]
  · constructor <;> simp [scrape_reviews, hpid, hpg, hblk]

/-- Fetcher of a session whose every request fails. -/
def c1Fetcher : String → Option Page := fun _ => none

/-- Witness for C1: a concrete product URL and a fetcher whose canary
fetch fails. -/
theorem canary_failure_aborts_run_witness :
    (scrape_reviews true c1Fetcher "https://www.amazon.in/dp/B0TESTID12" 3 "t").table = []
    ∧ (scrape_reviews true c1Fetcher "https://www.amazon.in/dp/B0TESTID12" 3 "t").fetchedUrls
        = [canary_url "B0TESTID12"] :=
  canary_failure_aborts_run c1Fetcher "https://www.amazon.in/dp/B0TESTID12" "B0TESTID12" 3 "t"
    rfl (Or.inl rfl)

/-- C9: with no session, `scrape_reviews` returns an empty table and
issues no fetch at all, the canary included, whatever the product URL. -/
theorem no_session_no_fetch (fetcher : String → Option Page) (url : String) (n : Nat)
    (now : String) :
    (scrape_reviews false fetcher url n now).table = []
    ∧ (scrape_reviews false fetcher url n now).fetchedUrls = [] := by
  cases h : extract_product_id url <;> simp [scrape_reviews, h]

lemma scrape_single_page_fails (fr : Option Page) (star : Nat) (now : String) (st : RunStats)
    (hfail : fr = none ∨ ∃ pg, fr = some pg ∧ isSoftBlocked pg.body = true) :
    scrape_single_page fr star now st
      = ({ st with failed_requests := st.failed_requests + 1 }, []) := by
  rcases hfail with h | ⟨pg, hpg, hblk⟩
  · simp [scrape_single_page, h]
  · simp [scrape_single_page, hpg, hblk]

lemma taskStep_eq (fetcher : String → Option Page) (pid now : String)
    (acc : RunStats × List ReviewRecord × List String) (t : Nat × Nat) :
    taskStep fetcher pid now acc t
      = (⟨acc.1.successful_requests + (if taskFails fetcher pid t then 0 else 1),
          acc.1.failed_requests + (if taskFails fetcher pid t then 1 else 0)⟩,
         acc.2.1 ++ taskReviews fetcher pid now t,
         acc.2.2 ++ [reviews_url pid t.1 t.2]) := by
  cases hf : fetcher (reviews_url pid t.1 t.2) with
  | none => simp [taskStep, scrape_single_page, taskFails, taskReviews, hf]
  | some pg =>
    cases hblk : isSoftBlocked pg.body <;>
      simp [taskStep, scrape_single_page, taskFails, taskReviews, hf, hblk]

lemma runTasks_spec (fetcher : String → Option Page) (pid now : String) :
    ∀ (tasks : List (Nat × Nat)) (acc : RunStats × List ReviewRecord × List String),
      runTasks fetcher pid now tasks acc
        = (⟨acc.1.successful_requests + tasks.countP (fun t => ! taskFails fetcher pid t),
            acc.1.failed_requests + tasks.countP (taskFails fetcher pid)⟩,
           acc.2.1 ++ tasks.flatMap (taskReviews fetcher pid now),
           acc.2.2 ++ tasks.map (fun t => reviews_url pid t.1 t.2)) := by
  intro tasks
  induction tasks with
  | nil => intro acc; simp [runTasks]
  | cons t ts ih =>
    intro acc
    rw [runTasks, List.foldl_cons, ← runTasks, ih, taskStep_eq]
    simp only [List.countP_cons, List.flatMap_cons, List.map_cons]
    cases hft : taskFails fetcher pid t <;>
      simp [hft, List.append_assoc] <;>
      omega

/-- C5: a task whose fetch exhausts its retries, or whose fetched body is
soft-blocked, increments the failure counter by exactly one, leaves the
success counter unchanged and contributes no reviews; and the run
processes every task of the grid regardless — the final counters count
exactly the failing and the non-failing tasks, and together account for
the whole grid, so no task failure aborts the run. -/
theorem failing_task_counted_run_continues :
    (∀ (fr : Option Page) (star : Nat) (now : String) (st : RunStats),
      (fr = none ∨ ∃ pg, fr = some pg ∧ isSoftBlocked pg.body = true) →
      scrape_single_page fr star now st
        = ({ st with failed_requests := st.failed_requests + 1 }, []))
    ∧ (∀ (fetcher : String → Option Page) (pid now : String) (tasks : List (Nat × Nat)),
      (runTasks fetcher pid now tasks (⟨0, 0⟩, [], [])).1.failed_requests
          = tasks.countP (taskFails fetcher pid)
        ∧ (runTasks fetcher pid now tasks (⟨0, 0⟩, [], [])).1.successful_requests
          = tasks.countP (fun t => ! taskFails fetcher pid t)
        ∧ (runTasks fetcher pid now tasks (⟨0, 0⟩, [], [])).1.successful_requests
            + (runTasks fetcher pid now tasks (⟨0, 0⟩, [], [])).1.failed_requests
          = tasks.length) := by
  refine ⟨scrape_single_page_fails, ?_⟩
  intro fetcher pid now tasks
  rw [runTasks_spec]
  refine ⟨by simp, by simp, ?_⟩
  simp only []
  have := List.length_eq_countP_add_countP (taskFails fetcher pid) tasks
  have hc : tasks.countP (fun t => ! taskFails fetcher pid t)
      = tasks.countP (fun t => decide ¬ taskFails fetcher pid t = true) := by
    apply List.countP_congr
    intro t _
    cases taskFails fetcher pid t <;> simp
  omega

/-- Witness for C5: a single failing task on fresh counters. -/
theorem failing_task_counted_run_continues_witness :
    scrape_single_page none 5 "t" ⟨0, 0⟩ = (⟨0, 1⟩, []) :=
  failing_task_counted_run_continues.1 none 5 "t" ⟨0, 0⟩ (Or.inl rfl)

/-- Fetcher whose canary fetch fails outright, aborting the run. -/
def c6AbortFetcher : String → Option Page := fun _ => none

/-- Fetcher whose every fetch succeeds with a non-blocked page holding no
review elements, so the run completes with zero reviews. -/
def c6EmptyFetcher : String → Option Page := fun _ => some ⟨"", []⟩

/-- C6 counterexample: an aborted run (canary fetch fails before any task
fetch) and a completed run that captured zero reviews (five successful
task fetches) return the very same empty table — the value handed back to
the caller carries no status distinguishing the two outcomes. -/
theorem aborted_and_empty_runs_return_same_value :
    (scrape_reviews true c6AbortFetcher "https://www.amazon.in/dp/B0TESTID12" 1 "t").table
      = (scrape_reviews true c6EmptyFetcher "https://www.amazon.in/dp/B0TESTID12" 1 "t").table
    ∧ (scrape_reviews true c6AbortFetcher "https://www.amazon.in/dp/B0TESTID12" 1 "t").fetchedUrls
      = [canary_url "B0TESTID12"]
    ∧ (scrape_reviews true c6EmptyFetcher "https://www.amazon.in/dp/B0TESTID12" 1 "t").stats
      = ⟨5, 0⟩ :=
  ⟨rfl, rfl, rfl⟩

/-- C6 amended: `scrape_reviews` returns the same empty table for a
canary-aborted run and for a completed run that captured zero reviews; the
two outcomes are distinguished only in the log events emitted (a canary
error for the abort, the access-test info plus a no-reviews warning for
the empty completion), not in the value returned to the caller. -/
theorem empty_vs_aborted_distinct_only_in_logs (f1 f2 : String → Option Page)
    (url pid : String) (n : Nat) (now1 now2 : String) (pg : Page)
    (hpid : extract_product_id url = some pid)
    (h1 : f1 (canary_url pid) = none)
    (h2 : f2 (canary_url pid) = some pg)
    (hblk : isSoftBlocked pg.body = false)
    (hempty : (scrape_reviews true f2 url n now2).table = []) :
    (scrape_reviews true f1 url n now1).table = (scrape_reviews true f2 url n now2).table
    ∧ (scrape_reviews true f1 url n now1).logs = [.errorCanaryFailed]
    ∧ (scrape_reviews true f2 url n now2).logs = [.infoAccessTestPassed, .warningNoReviews]
    ∧ (scrape_reviews true f1 url n now1).logs ≠ (scrape_reviews true f2 url n now2).logs := by
  simp only [scrape_reviews, hpid, h1, h2, hblk] at hempty ⊢
  simp only [Bool.false_eq_true, if_false, if_true] at hempty ⊢
  simp [hempty]

/-- Witness for C6 (amended): the two concrete fetchers of the
counterexample scenario. -/
theorem empty_vs_aborted_distinct_only_in_logs_witness :
    (scrape_reviews true c6AbortFetcher "https://www.amazon.in/dp/B0TESTID12" 1 "t").logs
      ≠ (scrape_reviews true c6EmptyFetcher "https://www.amazon.in/dp/B0TESTID12" 1 "t").logs :=
  (empty_vs_aborted_distinct_only_in_logs c6AbortFetcher c6EmptyFetcher
    "https://www.amazon.in/dp/B0TESTID12" "B0TESTID12" 1 "t" "t" ⟨"", []⟩
    rfl rfl rfl (by decide) rfl).2.2.2

/-- One concrete review element with every field present. -/
def c7Element : ReviewElement :=
  { titleMain := some "Great "
    titleFallback := none
    textMain := some "Nice product"
    textFallback := none
    dateElem := some "1 January 2024"
    verifiedPresent := true
    authorElem := some "Alice"
    ratingElem := some "4.0 out of 5 stars" }

/-- C7 counterexample: extracting the same page content twice, at clock
readings one second apart, yields records that are not identical — the
capture timestamp field differs. -/
theorem extraction_not_timestamp_idempotent :
    extract_reviews_from_page [c7Element] 4 "2024-01-01 10:00:00"
      ≠ extract_reviews_from_page [c7Element] 4 "2024-01-01 10:00:01" := by
  intro h
  have h1 := congrArg (fun l => l.map (fun r => r.extracted_date)) h
  simp [extract_reviews_from_page, extractReview] at h1

/-- C7 amended: extraction is deterministic in the page content — two
extractions of the same content agree on every content-derived field
(star rating, title, text, date, verified flag, author); only the capture
timestamp differs, each record carrying the clock reading of its own
extraction. -/
theorem extraction_content_deterministic (elems : List ReviewElement) (star : Nat)
    (now1 now2 : String) :
    (extract_reviews_from_page elems star now1).map contentFields
      = (extract_reviews_from_page elems star now2).map contentFields
    ∧ (extract_reviews_from_page elems star now1).map (fun r => r.extracted_date)
      = List.replicate elems.length now1 := by
  constructor
  · simp only [extract_reviews_from_page, List.map_map]
    exact List.map_congr_left (fun e _ => rfl)
  · simp only [extract_reviews_from_page, List.map_map]
    induction elems with
    | nil => rfl
    | cons e es ih =>
      simp only [List.map_cons, List.length_cons, List.replicate_succ]
      exact congrArg (List.cons now1) ih

lemma countP_set_step {α : Type} (p : α → Bool) (l : List α) :
    ∀ (i : Nat) (x y : α), l[i]? = some y →
      (l.set i x).countP p + (if p y then 1 else 0)
        = l.countP p + (if p x then 1 else 0) := by
  induction l with
  | nil => intro i x y h; simp at h
  | cons a l ih =>
    intro i x y h
    cases i with
    | zero =>
      rw [List.getElem?_cons_zero] at h
      cases h
      simp only [List.set_cons_zero, List.countP_cons]
      omega
    | succ i =>
      rw [List.getElem?_cons_succ] at h
      have hl := ih i x y h
      simp only [List.set_cons_succ, List.countP_cons]
      omega

lemma countP_set_le {α : Type} (p : α → Bool) (l : List α) (i : Nat) (x y : α)
    (h : l[i]? = some y) (hxy : p y = true → p x = true) :
    l.countP p ≤ (l.set i x).countP p := by
  have hc := countP_set_step p l i x y h
  cases hy : p y <;> cases hx : p x <;> simp [hy, hx] at hc hxy ⊢ <;> omega

/-- Semaphore accounting invariant: the free units plus the tasks inside
the `with self.semaphore:` block always add up to the capacity. -/
def SemInv (cap : Nat) (s : PoolState) : Prop :=
  s.avail + s.phases.countP holdsUnit = cap

lemma semInv_init (cap k : Nat) : SemInv cap (PoolInit cap k) := by
  unfold SemInv PoolInit
  have : (List.replicate k TaskPhase.idle).countP holdsUnit = 0 := by
    apply List.countP_eq_zero.mpr
    intro a ha
    rw [(List.mem_replicate.mp ha).2]
    simp [holdsUnit]
  simp [this]

lemma semInv_step {cap : Nat} {s s' : PoolState} (hstep : PoolStep s s')
    (hinv : SemInv cap s) : SemInv cap s' := by
  unfold SemInv at hinv ⊢
  cases hstep with
  | acquire i hph hav =>
    have hc := countP_set_step holdsUnit s.phases i .holding .idle hph
    simp [holdsUnit] at hc
    show s.avail - 1 + (s.phases.set i .holding).countP holdsUnit = cap
    omega
  | startFetch i hph =>
    have hc := countP_set_step holdsUnit s.phases i .fetching .holding hph
    simp [holdsUnit] at hc
    show s.avail + (s.phases.set i .fetching).countP holdsUnit = cap
    omega
  | endFetch i ok hph =>
    have hc := countP_set_step holdsUnit s.phases i (.fetched ok) .fetching hph
    simp [holdsUnit] at hc
    show s.avail + (s.phases.set i (.fetched ok)).countP holdsUnit = cap
    omega
  | readCounter i ok hph =>
    have hc := countP_set_step holdsUnit s.phases i
      (.readCtr ok (if ok then s.succ else s.fail)) (.fetched ok) hph
    simp [holdsUnit] at hc
    show s.avail + (s.phases.set i (.readCtr ok (if ok then s.succ else s.fail))).countP
      holdsUnit = cap
    omega
  | writeCounter i ok v hph =>
    have hc := countP_set_step holdsUnit s.phases i (.wroteCtr ok) (.readCtr ok v) hph
    simp [holdsUnit] at hc
    show s.avail + (s.phases.set i (.wroteCtr ok)).countP holdsUnit = cap
    omega
  | release i ok hph =>
    have hc := countP_set_step holdsUnit s.phases i (.finished ok) (.wroteCtr ok) hph
    simp [holdsUnit] at hc
    show s.avail + 1 + (s.phases.set i (.finished ok)).countP holdsUnit = cap
    omega

lemma semInv_reach {cap k : Nat} {s : PoolState} (h : PoolReach cap k s) : SemInv cap s := by
  induction h with
  | refl => exact semInv_init cap k
  | tail _ hstep ih => exact semInv_step hstep ih

/-- C2: in every reachable state of the interleaving model, the number of
fetch calls in flight is at most the semaphore capacity, and whenever some
fetch is in flight at least one unit of the semaphore is held.  Every task
acquires a unit before its fetch and the release step is the unique exit
of the region for both the success and the failure branch, which is what
the accounting `avail + held = cap` expresses. -/
theorem semaphore_bounds_concurrency (cap k : Nat) (s : PoolState)
    (h : PoolReach cap k s) :
    s.phases.countP isFetching ≤ cap
    ∧ s.avail + s.phases.countP holdsUnit = cap
    ∧ (0 < s.phases.countP isFetching → s.avail < cap) := by
  have hinv := semInv_reach h
  have hmono : s.phases.countP isFetching ≤ s.phases.countP holdsUnit := by
    apply List.countP_mono_left
    intro x _ hx
    cases x <;> simp_all [isFetching, holdsUnit]
  unfold SemInv at hinv
  exact ⟨by omega, hinv, by omega⟩

/-- Witness for C2: the initial state of a ten-thread, fifty-task run. -/
theorem semaphore_bounds_concurrency_witness :
    (PoolInit 10 50).phases.countP isFetching ≤ 10
    ∧ (PoolInit 10 50).avail + (PoolInit 10 50).phases.countP holdsUnit = 10
    ∧ (0 < (PoolInit 10 50).phases.countP isFetching → (PoolInit 10 50).avail < 10) :=
  semaphore_bounds_concurrency 10 50 (PoolInit 10 50) Relation.ReflTransGen.refl

lemma getElem?_some_lt {α : Type} {l : List α} {i : Nat} {a : α}
    (h : l[i]? = some a) : i < l.length := by
  by_contra hge
  rw [List.getElem?_eq_none (by omega)] at h
  cases h

/-- Counter soundness invariant: each shared counter never exceeds the
number of tasks that have completed the corresponding counter write, and
every pending read-modify-write holds a value bounded by that number. -/
def CtrInv (s : PoolState) : Prop :=
  s.fail ≤ s.phases.countP wroteFail
  ∧ s.succ ≤ s.phases.countP wroteSucc
  ∧ (∀ (i v : Nat), s.phases[i]? = some (TaskPhase.readCtr false v)
      → v ≤ s.phases.countP wroteFail)
  ∧ (∀ (i v : Nat), s.phases[i]? = some (TaskPhase.readCtr true v)
      → v ≤ s.phases.countP wroteSucc)

lemma ctrInv_init (cap k : Nat) : CtrInv (PoolInit cap k) := by
  refine ⟨Nat.zero_le _, Nat.zero_le _, ?_, ?_⟩ <;>
    intro i v hj <;>
    rw [PoolInit, List.getElem?_replicate] at hj <;>
    split at hj <;> simp at hj

lemma ctrInv_step {s s' : PoolState} (hstep : PoolStep s s') (hinv : CtrInv s) :
    CtrInv s' := by
  obtain ⟨hf, hs', h3, h4⟩ := hinv
  cases hstep with
  | acquire i hph hav =>
    have hF := countP_set_step wroteFail s.phases i .holding .idle hph
    have hS := countP_set_step wroteSucc s.phases i .holding .idle hph
    simp [wroteFail, wroteSucc] at hF hS
    have hset : (s.phases.set i TaskPhase.holding)[i]? = some .holding :=
      List.getElem?_set_self (getElem?_some_lt hph)
    refine ⟨by simpa [hF] using hf, by simpa [hS] using hs', ?_, ?_⟩ <;>
      intro j v hj <;> rcases eq_or_ne i j with rfl | hne
    · rw [hset] at hj; simp at hj
    · rw [List.getElem?_set_ne hne] at hj; exact (h3 j v hj).trans (le_of_eq hF.symm)
    · rw [hset] at hj; simp at hj
    · rw [List.getElem?_set_ne hne] at hj; exact (h4 j v hj).trans (le_of_eq hS.symm)
  | startFetch i hph =>
    have hF := countP_set_step wroteFail s.phases i .fetching .holding hph
    have hS := countP_set_step wroteSucc s.phases i .fetching .holding hph
    simp [wroteFail, wroteSucc] at hF hS
    have hset : (s.phases.set i TaskPhase.fetching)[i]? = some .fetching :=
      List.getElem?_set_self (getElem?_some_lt hph)
    refine ⟨by simpa [hF] using hf, by simpa [hS] using hs', ?_, ?_⟩ <;>
      intro j v hj <;> rcases eq_or_ne i j with rfl | hne
    · rw [hset] at hj; simp at hj
    · rw [List.getElem?_set_ne hne] at hj; exact (h3 j v hj).trans (le_of_eq hF.symm)
    · rw [hset] at hj; simp at hj
    · rw [List.getElem?_set_ne hne] at hj; exact (h4 j v hj).trans (le_of_eq hS.symm)
  | endFetch i ok hph =>
    have hF := countP_set_step wroteFail s.phases i (.fetched ok) .fetching hph
    have hS := countP_set_step wroteSucc s.phases i (.fetched ok) .fetching hph
    simp [wroteFail, wroteSucc] at hF hS
    have hset : (s.phases.set i (TaskPhase.fetched ok))[i]? = some (.fetched ok) :=
      List.getElem?_set_self (getElem?_some_lt hph)
    refine ⟨by simpa [hF] using hf, by simpa [hS] using hs', ?_, ?_⟩ <;>
      intro j v hj <;> rcases eq_or_ne i j with rfl | hne
    · rw [hset] at hj; simp at hj
    · rw [List.getElem?_set_ne hne] at hj; exact (h3 j v hj).trans (le_of_eq hF.symm)
    · rw [hset] at hj; simp at hj
    · rw [List.getElem?_set_ne hne] at hj; exact (h4 j v hj).trans (le_of_eq hS.symm)
  | readCounter i ok hph =>
    have hF := countP_set_step wroteFail s.phases i
      (.readCtr ok (if ok then s.succ else s.fail)) (.fetched ok) hph
    have hS := countP_set_step wroteSucc s.phases i
      (.readCtr ok (if ok then s.succ else s.fail)) (.fetched ok) hph
    simp [wroteFail, wroteSucc] at hF hS
    have hset : (s.phases.set i (TaskPhase.readCtr ok (if ok then s.succ else s.fail)))[i]?
        = some (.readCtr ok (if ok then s.succ else s.fail)) :=
      List.getElem?_set_self (getElem?_some_lt hph)
    refine ⟨by simpa [hF] using hf, by simpa [hS] using hs', ?_, ?_⟩ <;>
      intro j v hj <;> rcases eq_or_ne i j with rfl | hne
    · rw [hset] at hj
      simp at hj
      obtain ⟨rfl, hv⟩ := hj
      simp at hv hF ⊢
      omega
    · rw [List.getElem?_set_ne hne] at hj; exact (h3 j v hj).trans (le_of_eq hF.symm)
    · rw [hset] at hj
      simp at hj
      obtain ⟨rfl, hv⟩ := hj
      simp at hv hS ⊢
      omega
    · rw [List.getElem?_set_ne hne] at hj; exact (h4 j v hj).trans (le_of_eq hS.symm)
  | writeCounter i ok v hph =>
    have hF := countP_set_step wroteFail s.phases i (.wroteCtr ok) (.readCtr ok v) hph
    have hS := countP_set_step wroteSucc s.phases i (.wroteCtr ok) (.readCtr ok v) hph
    have hset : (s.phases.set i (TaskPhase.wroteCtr ok))[i]? = some (.wroteCtr ok) :=
      List.getElem?_set_self (getElem?_some_lt hph)
    cases ok with
    | false =>
      simp [wroteFail, wroteSucc] at hF hS
      have hv := h3 i v hph
      refine ⟨by dsimp only; simp; omega, by simpa [hS] using hs', ?_, ?_⟩ <;>
        intro j w hj <;> rcases eq_or_ne i j with rfl | hne
      · rw [hset] at hj; simp at hj
      · rw [List.getElem?_set_ne hne] at hj; have := h3 j w hj; dsimp only; omega
      · rw [hset] at hj; simp at hj
      · rw [List.getElem?_set_ne hne] at hj; exact (h4 j w hj).trans (le_of_eq hS.symm)
    | true =>
      simp [wroteFail, wroteSucc] at hF hS
      have hv := h4 i v hph
      refine ⟨by simpa [hF] using hf, by dsimp only; simp; omega, ?_, ?_⟩ <;>
        intro j w hj <;> rcases eq_or_ne i j with rfl | hne
      · rw [hset] at hj; simp at hj
      · rw [List.getElem?_set_ne hne] at hj; exact (h3 j w hj).trans (le_of_eq hF.symm)
      · rw [hset] at hj; simp at hj
      · rw [List.getElem?_set_ne hne] at hj; have := h4 j w hj; dsimp only; omega
  | release i ok hph =>
    have hF := countP_set_step wroteFail s.phases i (.finished ok) (.wroteCtr ok) hph
    have hS := countP_set_step wroteSucc s.phases i (.finished ok) (.wroteCtr ok) hph
    have hset : (s.phases.set i (TaskPhase.finished ok))[i]? = some (.finished ok) :=
      List.getElem?_set_self (getElem?_some_lt hph)
    cases ok <;> simp [wroteFail, wroteSucc] at hF hS <;>
      refine ⟨by dsimp only; omega, by dsimp only; omega, ?_, ?_⟩ <;>
      intro j w hj <;> rcases eq_or_ne i j with rfl | hne
    · rw [hset] at hj; simp at hj
    · rw [List.getElem?_set_ne hne] at hj; have := h3 j w hj; dsimp only; omega
    · rw [hset] at hj; simp at hj
    · rw [List.getElem?_set_ne hne] at hj; have := h4 j w hj; dsimp only; omega
    · rw [hset] at hj; simp at hj
    · rw [List.getElem?_set_ne hne] at hj; have := h3 j w hj; dsimp only; omega
    · rw [hset] at hj; simp at hj
    · rw [List.getElem?_set_ne hne] at hj; have := h4 j w hj; dsimp only; omega

lemma ctrInv_reach {cap k : Nat} {s : PoolState} (h : PoolReach cap k s) : CtrInv s := by
  induction h with
  | refl => exact ctrInv_init cap k
  | tail _ hstep ih => exact ctrInv_step hstep ih

/-- C8 amended: the per-task outcome counters are mutated from worker
contexts through plain read-modify-write attribute updates; the
capacity-`maxThreads` semaphore held around them provides no mutual
exclusion, so concurrent updates can lose increments.  What does hold is
soundness in one direction: in every reachable state each counter is at
most the number of tasks that have completed the corresponding counter
write — the counters can undercount outcomes but never overcount them. -/
theorem counters_never_overcount (cap k : Nat) (s : PoolState) (h : PoolReach cap k s) :
    s.fail ≤ s.phases.countP wroteFail ∧ s.succ ≤ s.phases.countP wroteSucc :=
  ⟨(ctrInv_reach h).1, (ctrInv_reach h).2.1⟩

/-- Witness for C8 (amended): the initial state of a two-thread, two-task
run. -/
theorem counters_never_overcount_witness :
    (PoolInit 2 2).fail ≤ (PoolInit 2 2).phases.countP wroteFail
    ∧ (PoolInit 2 2).succ ≤ (PoolInit 2 2).phases.countP wroteSucc :=
  counters_never_overcount 2 2 (PoolInit 2 2) Relation.ReflTransGen.refl

lemma lostUpdateTrace :
    PoolReach 2 2
      { avail := 2, succ := 0, fail := 1,
        phases := [TaskPhase.finished false, TaskPhase.finished false] } := by
  have h1 : PoolStep (PoolInit 2 2) ⟨1, 0, 0, [.holding, .idle]⟩ :=
    PoolStep.acquire (PoolInit 2 2) 0 rfl (by decide)
  have h2 : PoolStep ⟨1, 0, 0, [.holding, .idle]⟩ ⟨0, 0, 0, [.holding, .holding]⟩ :=
    PoolStep.acquire ⟨1, 0, 0, [.holding, .idle]⟩ 1 rfl (by decide)
  have h3 : PoolStep ⟨0, 0, 0, [.holding, .holding]⟩ ⟨0, 0, 0, [.fetching, .holding]⟩ :=
    PoolStep.startFetch ⟨0, 0, 0, [.holding, .holding]⟩ 0 rfl
  have h4 : PoolStep ⟨0, 0, 0, [.fetching, .holding]⟩ ⟨0, 0, 0, [.fetching, .fetching]⟩ :=
    PoolStep.startFetch ⟨0, 0, 0, [.fetching, .holding]⟩ 1 rfl
  have h5 : PoolStep ⟨0, 0, 0, [.fetching, .fetching]⟩
      ⟨0, 0, 0, [.fetched false, .fetching]⟩ :=
    PoolStep.endFetch ⟨0, 0, 0, [.fetching, .fetching]⟩ 0 false rfl
  have h6 : PoolStep ⟨0, 0, 0, [.fetched false, .fetching]⟩
      ⟨0, 0, 0, [.fetched false, .fetched false]⟩ :=
    PoolStep.endFetch ⟨0, 0, 0, [.fetched false, .fetching]⟩ 1 false rfl
  have h7 : PoolStep ⟨0, 0, 0, [.fetched false, .fetched false]⟩
      ⟨0, 0, 0, [.readCtr false 0, .fetched false]⟩ :=
    PoolStep.readCounter ⟨0, 0, 0, [.fetched false, .fetched false]⟩ 0 false rfl
  have h8 : PoolStep ⟨0, 0, 0, [.readCtr false 0, .fetched false]⟩
      ⟨0, 0, 0, [.readCtr false 0, .readCtr false 0]⟩ :=
    PoolStep.readCounter ⟨0, 0, 0, [.readCtr false 0, .fetched false]⟩ 1 false rfl
  have h9 : PoolStep ⟨0, 0, 0, [.readCtr false 0, .readCtr false 0]⟩
      ⟨0, 0, 1, [.wroteCtr false, .readCtr false 0]⟩ :=
    PoolStep.writeCounter ⟨0, 0, 0, [.readCtr false 0, .readCtr false 0]⟩ 0 false 0 rfl
  have h10 : PoolStep ⟨0, 0, 1, [.wroteCtr false, .readCtr false 0]⟩
      ⟨0, 0, 1, [.wroteCtr false, .wroteCtr false]⟩ :=
    PoolStep.writeCounter ⟨0, 0, 1, [.wroteCtr false, .readCtr false 0]⟩ 1 false 0 rfl
  have h11 : PoolStep ⟨0, 0, 1, [.wroteCtr false, .wroteCtr false]⟩
      ⟨1, 0, 1, [.finished false, .wroteCtr false]⟩ :=
    PoolStep.release ⟨0, 0, 1, [.wroteCtr false, .wroteCtr false]⟩ 0 false rfl
  have h12 : PoolStep ⟨1, 0, 1, [.finished false, .wroteCtr false]⟩
      ⟨2, 0, 1, [.finished false, .finished false]⟩ :=
    PoolStep.release ⟨1, 0, 1, [.finished false, .wroteCtr false]⟩ 1 false rfl
  exact .head h1 (.head h2 (.head h3 (.head h4 (.head h5 (.head h6 (.head h7 (.head h8
    (.head h9 (.head h10 (.head h11 (.head h12 .refl)))))))))))

/-- C8 counterexample: were every counter increment atomic or
lock-protected, a completed two-task run in which both tasks took the
failure branch would always end with the failure counter at 2.  The
interleaving in which both workers read the counter value 0 before either
writes is reachable under the code's `Semaphore(2)` admission control, and
ends with both tasks finished and the failure counter at 1 — a lost
update. -/
theorem counter_lost_update_reachable :
    ¬ (∀ s : PoolState, PoolReach 2 2 s →
        s.phases = [TaskPhase.finished false, TaskPhase.finished false] → s.fail = 2) := by
  intro hall
  have h := hall
    { avail := 2, succ := 0, fail := 1,
      phases := [TaskPhase.finished false, TaskPhase.finished false] }
    lostUpdateTrace rfl
  exact absurd h (by decide)

end Amalyze
